import Mathlib

/-!
Shallow embedding of `src/git_tools.py` (the GitTools Sublime plugin).

Python strings are modelled as `List Char` (`Str`); the external `git`
process is modelled by an environment `GitEnv` mapping a command line to
its outcome; the Sublime view is modelled by `ViewEnv`.  Every function
below mirrors the source function of the same name; failure follows the
Python exception flow (`Except Exc`), and `log.exception` calls are
modelled as emitted `LogEvent`s where a claim depends on them.
-/

set_option maxHeartbeats 1000000

abbrev Str := List Char

/-- The character data of a string literal; Python `str` values are `List Char`. -/
def str (s : String) : Str := s.data

/-- Python `base.startswith(p)`. -/
def startswith (base p : Str) : Bool := p.isPrefixOf base

/-- Python `base.endswith(p)`. -/
def endswith (base p : Str) : Bool := p.isSuffixOf base

/-- `removeprefix` from src/git_tools.py lines 100-103:
`base[len(p):]` when `base.startswith(p)`, else `base`. -/
def removeprefix (base p : Str) : Str :=
  if startswith base p then base.drop p.length else base

/-- `removesuffix` from src/git_tools.py lines 106-109:
`base[:len(base)-len(p)]` when `base.endswith(p)`, else `base`. -/
def removesuffix (base p : Str) : Str :=
  if endswith base p then base.take (base.length - p.length) else base

/-- Python `s.replace(old, new, 1)`: replace the leftmost occurrence of
`old` (matching the empty pattern at position 0, like Python). -/
def replaceFirst (old new : Str) : Str → Str
  | [] => if old.isPrefixOf [] then new else []
  | c :: cs =>
    if old.isPrefixOf (c :: cs) then new ++ (c :: cs).drop old.length
    else c :: replaceFirst old new cs

/-- Python `needle in hay` (substring containment). -/
def pyIn (needle : Str) : Str → Bool
  | [] => needle.isEmpty
  | c :: rest => needle.isPrefixOf (c :: rest) || pyIn needle rest

/-- ASCII whitespace as stripped by Python `str.strip()`. -/
def pySpace (c : Char) : Bool :=
  c == ' ' || c == '\t' || c == '\n' || c == '\r' || c == '\x0b' || c == '\x0c'

/-- Python `s.strip()`. -/
def pyStrip (s : Str) : Str :=
  ((s.dropWhile pySpace).reverse.dropWhile pySpace).reverse

/-- Line-break characters recognised by Python `str.splitlines()`. -/
def pyLineBreak (c : Char) : Bool :=
  c == '\n' || c == '\r' || c == '\x0b' || c == '\x0c' ||
  c == '\x1c' || c == '\x1d' || c == '\x1e' || c == '\x85' ||
  c == '\u2028' || c == '\u2029'

/-- Worker for `splitlines`; `acc` holds the current line reversed. -/
def splitlinesGo (acc : Str) : Str → List Str
  | [] => [acc.reverse]
  | c :: rest =>
    if pyLineBreak c then
      match c, rest with
      | '\r', '\n' :: r2 =>
        if r2.isEmpty then [acc.reverse] else acc.reverse :: splitlinesGo [] r2
      | _, r =>
        if r.isEmpty then [acc.reverse] else acc.reverse :: splitlinesGo [] r
    else splitlinesGo (c :: acc) rest

/-- Python `s.splitlines()` (`\r\n` counts as a single break; no final
empty line for a trailing terminator; `[]` for the empty string). -/
def splitlines : Str → List Str
  | [] => []
  | c :: rest => splitlinesGo [] (c :: rest)

/-- Python string comparison (lexicographic by code point), as used by `sorted`. -/
def pyLT : Str → Str → Bool
  | [], [] => false
  | [], _ :: _ => true
  | _ :: _, [] => false
  | a :: as, b :: bs =>
    if a.val < b.val then true
    else if a.val == b.val then pyLT as bs
    else false

/-- Stable insertion into an ascending list (strictly smaller elements
stay in front; an equal element is inserted after existing ones). -/
def pyInsert (x : Str) : List Str → List Str
  | [] => [x]
  | y :: ys => if pyLT x y then x :: y :: ys else y :: pyInsert x ys

/-- Python `sorted(l)` for lists of strings (stable ascending sort). -/
def pySorted : List Str → List Str
  | [] => []
  | x :: xs => pyInsert x (pySorted xs)

instance {ε α : Type} [DecidableEq ε] [DecidableEq α] :
    DecidableEq (Except ε α) := fun x y =>
  match x, y with
  | .ok a, .ok b =>
    if h : a = b then .isTrue (by rw [h]) else .isFalse (by simp [h])
  | .error a, .error b =>
    if h : a = b then .isTrue (by rw [h]) else .isFalse (by simp [h])
  | .ok _, .error _ => .isFalse (by simp)
  | .error _, .ok _ => .isFalse (by simp)

/-- Exceptions that can flow out of the embedded functions.
`calledProcessError` is `subprocess.CalledProcessError` (carrying the
command, exit code, captured stdout and stderr); `attributeError` is the
Python `AttributeError` raised by calling `.decode()` on a `str`;
`unsupportedURI` is `UnsupportedURIException` from the source. -/
inductive Exc where
  | calledProcessError (cmd : List Str) (returncode : Int) (stdoutS stderrS : Str)
  | timeoutExpired (cmd : List Str)
  | attributeError
  | indexError
  | otherError
  | unsupportedURI (uri : Str)
deriving DecidableEq

/-- Log records relevant to the claims: the `log.exception` call in `_git`
(command, exit code, stderr text as shown, with placeholder), and the two
`log.exception` calls in `view_selection_rows`. -/
inductive LogEvent where
  | cmdFailed (cmd : List Str) (returncode : Int) (stderrShown : Str)
  | excIndexError
  | excOffset
deriving DecidableEq

/-- Outcome of one execution of the external `git` process. -/
inductive RunResult where
  | completed (returncode : Int) (stdoutS stderrS : Str)
  | timedOut
deriving DecidableEq

/-- The ambient system: process execution plus the two `os.path` calls
used by `_git`. -/
structure GitEnv where
  run : List Str → RunResult
  isdir : Str → Bool
  dirname : Str → Str

/-- The `"<NONE>"` placeholder substituted for an empty stderr in `_git`'s log line. -/
def gitPlaceholder : Str := str "<NONE>"

/-- `_git` from src/git_tools.py lines 161-181.  Runs
`git -C <dir> <cmd...>`; on exit 0 returns stripped stdout; on non-zero
exit, `check=True` raises `CalledProcessError`, whose handler computes
`e.stderr.decode().strip() if e.stderr else "<NONE>"`.  Since the process
was run with `encoding="utf-8"`, `e.stderr` is a `str`: when it is
non-empty the `.decode()` call raises `AttributeError` (so nothing is
logged and no `CalledProcessError` propagates); when it is empty the
placeholder is logged and the original error is re-raised.  A timeout
raises `TimeoutExpired` uncaught. -/
def _git (env : GitEnv) (path : Str) (cmd : List Str) :
    Except Exc Str × List LogEvent :=
  let p := if env.isdir path then path else env.dirname path
  let cmdline := str "git" :: str "-C" :: p :: cmd
  match env.run cmdline with
  | .timedOut => (.error (.timeoutExpired cmdline), [])
  | .completed rc out err =>
    if rc == 0 then
      if !out.isEmpty then (.ok (pyStrip out), []) else (.ok [], [])
    else
      if !err.isEmpty then (.error .attributeError, [])
      else
        (.error (.calledProcessError cmdline rc out err),
         [.cmdFailed cmdline rc gitPlaceholder])

def nameRevCmd : List Str := [str "name-rev", str "--name-only", str "HEAD"]

def revParseHeadCmd : List Str := [str "rev-parse", str "HEAD"]

def topLevelCmd : List Str := [str "rev-parse", str "--show-toplevel"]

def remoteShowCmd : List Str := [str "remote", str "show"]

def branchContainsCmd (commit : Str) : List Str :=
  [str "branch", str "--all", str "--no-color", str "--contains", commit]

def configBranchRemoteCmd (b : Str) : List Str :=
  [str "config", str "branch." ++ b ++ str ".remote"]

def configRemoteUrlCmd (r : Str) : List Str :=
  [str "config", str "remote." ++ r ++ str ".url"]

def configGetBranchRemoteCmd (b : Str) : List Str :=
  [str "config", str "get", str "branch." ++ b ++ str ".remote"]

def configGetRemoteUrlCmd (r : Str) : List Str :=
  [str "config", str "get", str "remote." ++ r ++ str ".url"]

/-- `git_top_level` from src/git_tools.py lines 184-185. -/
def git_top_level (env : GitEnv) (path : Str) : Except Exc Str :=
  (_git env path topLevelCmd).1

/-- `git_commit_sha` from src/git_tools.py lines 188-189. -/
def git_commit_sha (env : GitEnv) (path : Str) : Except Exc Str :=
  (_git env path revParseHeadCmd).1

/-- `git_branch` from src/git_tools.py lines 192-199: the `name-rev` result
is returned only when it is neither literally `HEAD` nor a `tags/` ref;
otherwise (also when the call fails with `CalledProcessError`) the commit
hash of HEAD is returned instead. -/
def git_branch (env : GitEnv) (path : Str) : Except Exc Str :=
  match (_git env path nameRevCmd).1 with
  | .ok branch =>
    if branch != str "HEAD" && !(startswith branch (str "tags/")) then .ok branch
    else git_commit_sha env path
  | .error (.calledProcessError _ _ _ _) => git_commit_sha env path
  | .error e => .error e

/-- `PREFERRED_BRANCHES` from src/git_tools.py lines 16-21. -/
def PREFERRED_BRANCHES : List Str :=
  [str "master", str "main", str "remotes/origin/master", str "remotes/origin/main"]

/-- The condition of the first loop of `git_commit_branch` (line 221):
`b.startswith("* ") and "HEAD detached at" not in b`. -/
def currentBranchMarker (b : Str) : Bool :=
  startswith b (str "* ") && !(pyIn (str "HEAD detached at") b)

/-- The third loop of `git_commit_branch` (lines 231-237): first branch, in
sorted order, whose configured remote has a configured URL;
`CalledProcessError` from either config lookup skips the entry. -/
def branchWithRemote (env : GitEnv) (path : Str) : List Str → Except Exc (Option Str)
  | [] => .ok none
  | b :: rest =>
    match (_git env path (configBranchRemoteCmd b)).1 with
    | .ok remote =>
      match (_git env path (configRemoteUrlCmd remote)).1 with
      | .ok url =>
        if !url.isEmpty then .ok (some b) else branchWithRemote env path rest
      | .error (.calledProcessError _ _ _ _) => branchWithRemote env path rest
      | .error e => .error e
    | .error (.calledProcessError _ _ _ _) => branchWithRemote env path rest
    | .error e => .error e

/-- `git_commit_branch` from src/git_tools.py lines 204-239: list branches
containing the commit (`CalledProcessError` or an empty listing gives
`None`); return the first `* `-marked non-detached entry with the marker
stripped; otherwise the first `PREFERRED_BRANCHES` entry present in the
stripped listing; otherwise the first sorted entry with a usable remote. -/
def git_commit_branch (env : GitEnv) (path commit : Str) : Except Exc (Option Str) :=
  match (_git env path (branchContainsCmd commit)).1 with
  | .error (.calledProcessError _ _ _ _) => .ok none
  | .error e => .error e
  | .ok out =>
    let branches := splitlines out
    if branches.isEmpty then .ok none
    else
      match branches.find? currentBranchMarker with
      | some b => .ok (some ( removeprefix b (str "* ")))
      | none =>
        let stripped := branches.map pyStrip
        match PREFERRED_BRANCHES.find? (fun b => stripped.contains b) with
        | some b => .ok (some b)
        | none => branchWithRemote env path (pySorted stripped)

/-- `git_remotes` from src/git_tools.py lines 242-243. -/
def git_remotes (env : GitEnv) (path : Str) : Except Exc (List Str) :=
  match (_git env path remoteShowCmd).1 with
  | .ok out => .ok (splitlines out)
  | .error e => .error e

/-- `git_branch_remote_url` from src/git_tools.py lines 247-260: with
exactly one remote, return its URL (this lookup is outside the `try`, so
its failure propagates); otherwise look up `branch.<b>.remote` and then
that remote's URL inside a `try` whose `CalledProcessError` handler
returns `None`; an empty remote name returns `""`. -/
def git_branch_remote_url (env : GitEnv) (path branch : Str) :
    Except Exc (Option Str) :=
  match git_remotes env path with
  | .error e => .error e
  | .ok remotes =>
    match remotes with
    | [r] =>
      match (_git env path (configGetRemoteUrlCmd r)).1 with
      | .ok url => .ok (some url)
      | .error e => .error e
    | _ =>
      match (_git env path (configGetBranchRemoteCmd branch)).1 with
      | .ok remote =>
        if !remote.isEmpty then
          match (_git env path (configGetRemoteUrlCmd remote)).1 with
          | .ok url => .ok (some url)
          | .error (.calledProcessError _ _ _ _) => .ok none
          | .error e => .error e
        else .ok (some [])
      | .error (.calledProcessError _ _ _ _) => .ok none
      | .error e => .error e

/-- The scan over the caller-supplied replacement table in
`convert_remote_url` (lines 132-136): first entry whose key is a prefix of
`u` wins, replacing only the first occurrence; no match raises
`UnsupportedURIException(u)`. -/
def scanRepl (u : Str) : List (Str × Str) → Except Exc Str
  | [] => .error (.unsupportedURI u)
  | (k, v) :: rest =>
    if startswith u k then .ok (replaceFirst k v u) else scanRepl u rest

/-- `convert_remote_url` from src/git_tools.py lines 119-136. -/
def convert_remote_url (u : Str) (replacements : Option (List (Str × Str))) :
    Except Exc Str :=
  if startswith u (str "https://github.com") then .ok u
  else if startswith u (str "git@github.com") then
    .ok (str "https://" ++
      replaceFirst (str ":") (str "/")
        (removesuffix ( removeprefix u (str "git@")) (str ".git")))
  else if startswith u (str "https://go.googlesource.com/") then
    .ok (replaceFirst (str "https://go.googlesource.com/")
          (str "https://github.com/golang/") u)
  else
    match replacements with
    | some l => scanRepl u l
    | none => .error (.unsupportedURI u)

/-- A Sublime `Region`: `begin()` is `min(a, b)`, `end()` is `max(a, b)`. -/
structure Region where
  a : Int
  b : Int
deriving DecidableEq

def Region.begin (r : Region) : Int := min r.a r.b

def regionEnd (r : Region) : Int := max r.a r.b

/-- `RowRange` from src/git_tools.py lines 53-58 (1-based inclusive rows). -/
structure RowRange where
  begin : Int
  end_ : Int
deriving DecidableEq

/-- The Sublime view as seen by `view_selection_rows`: the selection list
and the `rowcol` conversion, each of which may raise. -/
structure ViewEnv where
  sel : Except Exc (List Region)
  rowcol : Int → Except Exc (Int × Int)

/-- Which `log.exception` call handles an exception in
`view_selection_rows`: `IndexError` hits the first handler, anything else
the generic one. -/
def excLog : Exc → LogEvent
  | .indexError => .excIndexError
  | _ => .excOffset

/-- `view_selection_rows` from src/git_tools.py lines 143-158: take the
first selection region, convert its `begin()` and `end()` points to
`(row, col)` pairs; identical pairs mean no selection (`None`); otherwise
a 1-based `RowRange` of the two rows.  Any exception is caught, logged,
and turned into `None`. -/
def view_selection_rows (v : ViewEnv) : Option RowRange × List LogEvent :=
  match v.sel with
  | .error e => (none, [excLog e])
  | .ok sel =>
    if !sel.isEmpty && decide (1 ≤ sel.length) then
      match sel with
      | [] => (none, [])
      | s0 :: _ =>
        match v.rowcol s0.begin with
        | .error e => (none, [excLog e])
        | .ok bg =>
          match v.rowcol (regionEnd s0) with
          | .error e => (none, [excLog e])
          | .ok en =>
            if bg = en then (none, [])
            else (some ⟨bg.1 + 1, en.1 + 1⟩, [])
    else (none, [])

def intStr (i : Int) : Str := (toString i).data

/-- URL assembly from `GitBrowse.run`, src/git_tools.py lines 92-96:
`{base}/blob/{branch}/{rel}` with `?plain=1#L{begin}-L{end}` appended only
when a row range is present. -/
def build_url (base_url branch rel : Str) (row_range : Option RowRange) : Str :=
  let url := base_url ++ str "/blob/" ++ branch ++ str "/" ++ rel
  match row_range with
  | none => url
  | some r => url ++ str "?plain=1#L" ++ intStr r.begin ++ str "-L" ++ intStr r.end_

/-! Concrete fixtures used by counterexamples and witnesses. -/

/-- A commit hash, as `rev-parse HEAD` would print it. -/
def shaFix : Str := str "8b7a19d3c0de02d0ca6e2b39e37a9a856c6b6e2a"

/-- Repository where HEAD resolves to the tag ref `tags/v1.0.0`. -/
def envTagged : GitEnv :=
  ⟨fun c =>
    if c = str "git" :: str "-C" :: str "/repo" :: nameRevCmd then
      .completed 0 (str "tags/v1.0.0") []
    else if c = str "git" :: str "-C" :: str "/repo" :: revParseHeadCmd then
      .completed 0 shaFix []
    else .completed 1 [] [],
   fun _ => true, fun p => p⟩

/-- Every git command fails with exit 128 and a non-empty stderr. -/
def envStderrFail : GitEnv :=
  ⟨fun _ => .completed 128 [] (str "fatal: not a git repository"), fun _ => true, fun p => p⟩

/-- Every git command fails with exit 128 and empty stderr. -/
def envSilentFail : GitEnv :=
  ⟨fun _ => .completed 128 [] [], fun _ => true, fun p => p⟩

/-- Repository whose branch listing for `shaFix` marks `feature` as checked
out while also containing `master`. -/
def envMarked : GitEnv :=
  ⟨fun c =>
    if c = str "git" :: str "-C" :: str "/repo" :: branchContainsCmd shaFix then
      .completed 0 (str "  master\n* feature") []
    else .completed 1 [] [],
   fun _ => true, fun p => p⟩

/-- Repository whose branch listing for `shaFix` has no current-branch
marker but contains `main`. -/
def envPreferred : GitEnv :=
  ⟨fun c =>
    if c = str "git" :: str "-C" :: str "/repo" :: branchContainsCmd shaFix then
      .completed 0 (str "  dev\n  main") []
    else .completed 1 [] [],
   fun _ => true, fun p => p⟩

/-- Repository with a single remote `origin` whose URL is configured; the
per-branch config lookup is poisoned (non-empty stderr) so that consulting
it would surface an error. -/
def envOneRemote : GitEnv :=
  ⟨fun c =>
    if c = str "git" :: str "-C" :: str "/repo" :: remoteShowCmd then
      .completed 0 (str "origin") []
    else if c = str "git" :: str "-C" :: str "/repo" :: configGetRemoteUrlCmd (str "origin") then
      .completed 0 (str "git@github.com:org/repo.git") []
    else .completed 1 [] (str "poisoned"),
   fun _ => true, fun p => p⟩

/-- Repository with two remotes where the `branch.dev.remote` config lookup
exits 1 with empty stderr (key absent), i.e. fails with
`CalledProcessError`. -/
def envTwoRemotes : GitEnv :=
  ⟨fun c =>
    if c = str "git" :: str "-C" :: str "/repo" :: remoteShowCmd then
      .completed 0 (str "origin\nupstream") []
    else .completed 1 [] [],
   fun _ => true, fun p => p⟩

/-- View with one zero-width selection at point 5. -/
def viewZeroWidth : ViewEnv := ⟨.ok [⟨5, 5⟩], fun p => .ok (p, 0)⟩

/-- View whose selection accessor raises `IndexError` (file closed). -/
def viewSelRaises : ViewEnv := ⟨.error .indexError, fun p => .ok (p, 0)⟩

/-- View where every `rowcol` call raises `IndexError`. -/
def viewRowcolRaises : ViewEnv := ⟨.ok [⟨3, 9⟩], fun _ => .error .indexError⟩

/-- View where `rowcol` succeeds at point 3 and raises a generic exception
elsewhere. -/
def viewRowcolPartial : ViewEnv :=
  ⟨.ok [⟨3, 9⟩], fun p => if p = 3 then .ok (0, 3) else .error .otherError⟩

/-- View with a proper selection from point 3 to point 9 where `rowcol`
maps a point to its own row. -/
def viewProper : ViewEnv := ⟨.ok [⟨3, 9⟩], fun p => .ok (p, 0)⟩

/-! General lemmas about the string primitives. -/

theorem beq_cons_cons (a b : Char) (as bs : List Char) :
    ((a :: as : List Char) == (b :: bs)) = (a == b && as == bs) := rfl

theorem isPrefixOf_append_eq (p q s t : List Char) (h : p.length = s.length) :
    (p ++ q).isPrefixOf (s ++ t) = (p == s && q.isPrefixOf t) := by
  induction p generalizing s with
  | nil =>
    cases s with
    | nil => simp
    | cons b bs => simp at h
  | cons a as ih =>
    cases s with
    | nil => simp at h
    | cons b bs =>
      simp only [List.cons_append, List.isPrefixOf_cons₂, beq_cons_cons]
      rw [ih bs (by simpa using h), Bool.and_assoc]

theorem isPrefixOf_append_left_eq (p s t : List Char) (h : p.length = s.length) :
    p.isPrefixOf (s ++ t) = (p == s) := by
  have h2 := isPrefixOf_append_eq p [] s t h
  simpa using h2

theorem isPrefixOf_self_append (p t : List Char) : p.isPrefixOf (p ++ t) = true := by
  rw [isPrefixOf_append_left_eq p p t rfl]
  exact beq_self_eq_true p

theorem exists_rest_of_isPrefixOf {p s : List Char} (h : p.isPrefixOf s = true) :
    ∃ t, s = p ++ t := by
  have h2 : p <+: s := List.isPrefixOf_iff_prefix.mp h
  obtain ⟨t, ht⟩ := h2
  exact ⟨t, ht.symm⟩

theorem removeprefix_append (p t : Str) : removeprefix (p ++ t) p = t := by
  unfold removeprefix startswith
  rw [isPrefixOf_self_append]
  simp [List.drop_left]

theorem endswith_append (s q : Str) : endswith (s ++ q) q = true := by
  unfold endswith
  simp [List.isSuffixOf_iff_suffix]

theorem removesuffix_append (s q : Str) : removesuffix (s ++ q) q = s := by
  unfold removesuffix
  rw [endswith_append]
  simp [List.length_append, List.take_left]

theorem replaceFirst_of_isPrefixOf (old new s : Str) (h : old.isPrefixOf s = true) :
    replaceFirst old new s = new ++ s.drop old.length := by
  cases s with
  | nil => simp [replaceFirst, h]
  | cons c cs => simp [replaceFirst, h]

theorem replaceFirst_cons_of_ne (old new : Str) (c : Char) (cs : Str)
    (h : old.isPrefixOf (c :: cs) = false) :
    replaceFirst old new (c :: cs) = c :: replaceFirst old new cs := by
  simp [replaceFirst, h]

theorem replaceFirst_single_outside (c : Char) (new : Str) (p t : Str)
    (hp : ∀ d ∈ p, d ≠ c) :
    replaceFirst [c] new (p ++ t) = p ++ replaceFirst [c] new t := by
  induction p with
  | nil => simp
  | cons d ds ih =>
    have hd : d ≠ c := hp d (by simp)
    have hpre : ([c].isPrefixOf (d :: (ds ++ t))) = false := by
      rw [List.isPrefixOf_cons₂]
      simp only [List.isPrefixOf_nil_left, Bool.and_true]
      exact beq_eq_false_iff_ne.mpr (fun h2 => hd h2.symm)
    calc replaceFirst [c] new ((d :: ds) ++ t)
        = replaceFirst [c] new (d :: (ds ++ t)) := by rw [List.cons_append]
      _ = d :: replaceFirst [c] new (ds ++ t) := replaceFirst_cons_of_ne _ _ _ _ hpre
      _ = d :: (ds ++ replaceFirst [c] new t) := by
            rw [ih (fun e he => hp e (by simp [he]))]
      _ = (d :: ds) ++ replaceFirst [c] new t := by rw [List.cons_append]

/-! Claim theorems. -/

/-- C1 counterexample: with HEAD resolving to the ref `tags/v1.0.0`,
`git_branch` does not place the stripped ref `v1.0.0` into the branch
segment; it returns the commit hash instead, so the claim that the
`tags/` prefix is stripped before the ref is used is false at this input. -/
theorem git_branch_tags_not_stripped_cex :
    git_branch envTagged (str "/repo") = .ok shaFix ∧
    removeprefix (str "tags/v1.0.0") (str "tags/") = str "v1.0.0" ∧
    shaFix ≠ str "v1.0.0" := by decide

/-- C1 (amended): a ref beginning with `tags/` is never used in the URL's
branch segment at all — `git_branch` discards it and falls back to the
commit hash of HEAD, so (the hash itself not beginning with `tags/`) the
branch value carries no `tags/` prefix; no stripping occurs. -/
theorem git_branch_tags_ref_fallback (env : GitEnv) (path nm sha : Str)
    (h1 : (_git env path nameRevCmd).1 = .ok nm)
    (h2 : startswith nm (str "tags/") = true)
    (h3 : (_git env path revParseHeadCmd).1 = .ok sha)
    (h4 : startswith sha (str "tags/") = false) :
    git_branch env path = .ok sha ∧ startswith sha (str "tags/") = false := by
  refine ⟨?_, h4⟩
  unfold git_branch
  rw [h1]
  simp only [h2, Bool.not_true, Bool.and_false, Bool.false_eq_true, if_false]
  unfold git_commit_sha
  exact h3

/-- C1 witness. -/
theorem git_branch_tags_ref_fallback_witness :
    git_branch envTagged (str "/repo") = .ok shaFix ∧
      startswith shaFix (str "tags/") = false :=
  git_branch_tags_ref_fallback envTagged (str "/repo") (str "tags/v1.0.0") shaFix
    (by decide) (by decide) (by decide) (by decide)

/-- C2 (code bug): on non-zero exit with non-empty stderr, the handler's
`e.stderr.decode()` raises `AttributeError` (stderr is already `str`
because the process ran with `encoding="utf-8"`), so nothing is logged and
no `CalledProcessError` carrying the command/exit-code/stderr propagates —
contradicting the claimed behaviour, which the code only realises when
stderr is empty (second conjunct: placeholder logged, error re-raised). -/
theorem git_runner_nonzero_exit_behavior :
    _git envStderrFail (str "/x") revParseHeadCmd = (.error .attributeError, []) ∧
    _git envSilentFail (str "/x") revParseHeadCmd =
      (.error (.calledProcessError
          (str "git" :: str "-C" :: str "/x" :: revParseHeadCmd) 128 [] []),
       [.cmdFailed (str "git" :: str "-C" :: str "/x" :: revParseHeadCmd) 128
          gitPlaceholder]) := by decide

/-- C4: whenever the branch listing contains an entry prefixed `* ` that
does not contain the detached-HEAD placeholder, `git_commit_branch`
returns that (first such) entry with the marker stripped — regardless of
anything else in the listing, in particular of any `PREFERRED_BRANCHES`
entry also present. -/
theorem git_commit_branch_current_marker (env : GitEnv) (path commit out b : Str)
    (h1 : (_git env path (branchContainsCmd commit)).1 = .ok out)
    (h2 : (splitlines out).find? currentBranchMarker = some b) :
    git_commit_branch env path commit = .ok (some ( removeprefix b (str "* "))) := by
  have hne : (splitlines out).isEmpty = false := by
    cases hsp : splitlines out with
    | nil => rw [hsp] at h2; simp at h2
    | cons x xs => simp
  unfold git_commit_branch
  rw [h1]
  simp only [hne, Bool.false_eq_true, if_false, h2]

/-- C4 witness: the listing also contains `master`, yet the marked entry
`feature` is returned. -/
theorem git_commit_branch_current_marker_witness :
    git_commit_branch envMarked (str "/repo") shaFix =
      .ok (some ( removeprefix (str "* feature") (str "* "))) :=
  git_commit_branch_current_marker envMarked (str "/repo") shaFix
    (str "master\n* feature") (str "* feature") (by decide) (by decide)

/-- C5: when no listing entry passes the current-branch-marker test,
`git_commit_branch` scans `PREFERRED_BRANCHES` in order and returns the
first name present in the stripped listing. -/
theorem git_commit_branch_preferred_order (env : GitEnv) (path commit out p : Str)
    (h1 : (_git env path (branchContainsCmd commit)).1 = .ok out)
    (h2 : (splitlines out).find? currentBranchMarker = none)
    (h3 : PREFERRED_BRANCHES.find?
        (fun b => ((splitlines out).map pyStrip).contains b) = some p) :
    git_commit_branch env path commit = .ok (some p) := by
  have hmem := List.find?_some h3
  have hne : (splitlines out).isEmpty = false := by
    cases hsp : splitlines out with
    | nil => rw [hsp] at hmem; simp at hmem
    | cons x xs => simp
  unfold git_commit_branch
  rw [h1]
  simp only [hne, Bool.false_eq_true, if_false, h2, h3]

/-- C5 witness: no marked entry; `master` absent, `main` present → `main`. -/
theorem git_commit_branch_preferred_order_witness :
    git_commit_branch envPreferred (str "/repo") shaFix = .ok (some (str "main")) :=
  git_commit_branch_preferred_order envPreferred (str "/repo") shaFix
    (str "dev\n  main") (str "main") (by decide) (by decide) (by decide)

/-- C6: with exactly one remote, `git_branch_remote_url` returns that
remote's configured URL directly — the hypotheses constrain nothing about
the per-branch config lookup, so no branch-specific lookup can be
involved; with several (or zero) remotes, a `CalledProcessError` from the
`branch.<b>.remote` lookup yields an absent result, not a propagated
error. -/
theorem git_branch_remote_url_spec
    (env1 : GitEnv) (path1 branch1 rout1 r u : Str)
    (env2 : GitEnv) (path2 branch2 rout2 : Str) (rs : List Str)
    (c : List Str) (rc : Int) (so se : Str)
    (h1 : (_git env1 path1 remoteShowCmd).1 = .ok rout1)
    (h2 : splitlines rout1 = [r])
    (h3 : (_git env1 path1 (configGetRemoteUrlCmd r)).1 = .ok u)
    (g1 : (_git env2 path2 remoteShowCmd).1 = .ok rout2)
    (g2 : splitlines rout2 = rs)
    (g3 : rs.length ≠ 1)
    (g4 : (_git env2 path2 (configGetBranchRemoteCmd branch2)).1 =
      .error (.calledProcessError c rc so se)) :
    git_branch_remote_url env1 path1 branch1 = .ok (some u) ∧
    git_branch_remote_url env2 path2 branch2 = .ok none := by
  constructor
  · unfold git_branch_remote_url git_remotes
    rw [h1]
    simp only [h2, h3]
  · unfold git_branch_remote_url git_remotes
    rw [g1]
    simp only [g2]
    match rs, g3 with
    | [], _ => simp only [g4]
    | [a], g3 => exact absurd rfl g3
    | a :: b :: l, _ => simp only [g4]

/-- C6 witness: `envOneRemote` has a poisoned per-branch lookup, yet the
single-remote path returns the URL; `envTwoRemotes` has an absent
`branch.dev.remote` key and yields `none`. -/
theorem git_branch_remote_url_spec_witness :
    git_branch_remote_url envOneRemote (str "/repo") (str "dev") =
      .ok (some (str "git@github.com:org/repo.git")) ∧
    git_branch_remote_url envTwoRemotes (str "/repo") (str "dev") = .ok none :=
  git_branch_remote_url_spec envOneRemote (str "/repo") (str "dev")
    (str "origin") (str "origin") (str "git@github.com:org/repo.git")
    envTwoRemotes (str "/repo") (str "dev") (str "origin\nupstream")
    [str "origin", str "upstream"]
    (str "git" :: str "-C" :: str "/repo" :: configGetBranchRemoteCmd (str "dev"))
    1 [] []
    (by decide) (by decide) (by decide) (by decide) (by decide) (by decide) (by decide)

/-- C9: a selection whose begin and end points map to the identical
`(row, col)` pair yields an absent row range, and the URL built from that
absent range is exactly the base form with no line-range suffix. -/
theorem view_selection_rows_zero_width (v : ViewEnv) (s0 : Region)
    (rest : List Region) (pr : Int × Int) (base branch rel : Str)
    (h1 : v.sel = .ok (s0 :: rest))
    (h2 : v.rowcol s0.begin = .ok pr)
    (h3 : v.rowcol (regionEnd s0) = .ok pr) :
    (view_selection_rows v).1 = none ∧
    build_url base branch rel (view_selection_rows v).1 =
      base ++ str "/blob/" ++ branch ++ str "/" ++ rel := by
  have hmain : (view_selection_rows v).1 = none := by
    unfold view_selection_rows
    rw [h1]
    simp [h2, h3]
  refine ⟨hmain, ?_⟩
  rw [hmain]
  rfl

/-- C9 witness. -/
theorem view_selection_rows_zero_width_witness :
    (view_selection_rows viewZeroWidth).1 = none ∧
    build_url (str "https://github.com/org/repo") (str "main") (str "a/b.go")
        (view_selection_rows viewZeroWidth).1 =
      str "https://github.com/org/repo" ++ str "/blob/" ++ str "main" ++
        str "/" ++ str "a/b.go" :=
  view_selection_rows_zero_width viewZeroWidth ⟨5, 5⟩ [] (5, 0)
    (str "https://github.com/org/repo") (str "main") (str "a/b.go")
    (by decide) (by decide) (by decide)

/-- C10: `view_selection_rows` never lets an exception escape: a raising
selection accessor or a raising `rowcol` call (either point) produces an
absent result plus the corresponding log entry (`IndexError` hits the
index-error handler); and in the success case the result is either absent
or a range `⟨r1+1, r2+1⟩` satisfying `1 ≤ begin ≤ end` (given the editor
guarantees a non-negative begin row not after the end row). -/
theorem view_selection_rows_exception_safety
    (v1 : ViewEnv) (e1 : Exc)
    (v2 : ViewEnv) (s2 : Region) (rs2 : List Region) (e2 : Exc)
    (v3 : ViewEnv) (s3 : Region) (rs3 : List Region) (p3 : Int × Int) (e3 : Exc)
    (v4 : ViewEnv) (s4 : Region) (rs4 : List Region) (r1 c1 r2 c2 : Int)
    (h1 : v1.sel = .error e1)
    (h2a : v2.sel = .ok (s2 :: rs2)) (h2b : v2.rowcol s2.begin = .error e2)
    (h3a : v3.sel = .ok (s3 :: rs3)) (h3b : v3.rowcol s3.begin = .ok p3)
    (h3c : v3.rowcol (regionEnd s3) = .error e3)
    (h4a : v4.sel = .ok (s4 :: rs4)) (h4b : v4.rowcol s4.begin = .ok (r1, c1))
    (h4c : v4.rowcol (regionEnd s4) = .ok (r2, c2))
    (h4d : 0 ≤ r1) (h4e : r1 ≤ r2) :
    view_selection_rows v1 = (none, [excLog e1]) ∧
    view_selection_rows v2 = (none, [excLog e2]) ∧
    view_selection_rows v3 = (none, [excLog e3]) ∧
    ((view_selection_rows v4).1 = none ∨
      ((view_selection_rows v4).1 = some ⟨r1 + 1, r2 + 1⟩ ∧
        1 ≤ r1 + 1 ∧ r1 + 1 ≤ r2 + 1)) := by
  refine ⟨?_, ?_, ?_, ?_⟩
  · unfold view_selection_rows
    rw [h1]
  · unfold view_selection_rows
    rw [h2a]
    simp [h2b]
  · unfold view_selection_rows
    rw [h3a]
    simp [h3b, h3c]
  · unfold view_selection_rows
    rw [h4a]
    simp only [List.isEmpty_cons, Bool.not_false, List.length_cons, h4b, h4c]
    by_cases heq : (r1, c1) = (r2, c2)
    · left
      simp [heq]
    · right
      refine ⟨?_, by omega, by omega⟩
      simp [heq]

/-- C10 witness: the four fixture views exercise all four conjuncts. -/
theorem view_selection_rows_exception_safety_witness :
    view_selection_rows viewSelRaises = (none, [excLog .indexError]) ∧
    view_selection_rows viewRowcolRaises = (none, [excLog .indexError]) ∧
    view_selection_rows viewRowcolPartial = (none, [excLog .otherError]) ∧
    ((view_selection_rows viewProper).1 = none ∨
      ((view_selection_rows viewProper).1 = some ⟨3 + 1, 9 + 1⟩ ∧
        (1 : Int) ≤ 3 + 1 ∧ (3 : Int) + 1 ≤ 9 + 1)) :=
  view_selection_rows_exception_safety
    viewSelRaises .indexError
    viewRowcolRaises ⟨3, 9⟩ [] .indexError
    viewRowcolPartial ⟨3, 9⟩ [] (0, 3) .otherError
    viewProper ⟨3, 9⟩ [] 3 0 9 0
    (by decide) (by decide) (by decide) (by decide) (by decide) (by decide)
    (by decide) (by decide) (by decide) (by decide) (by decide)

theorem scanRepl_none (u : Str) (l : List (Str × Str))
    (h : ∀ kv ∈ l, startswith u kv.1 = false) :
    scanRepl u l = .error (.unsupportedURI u) := by
  induction l with
  | nil => rfl
  | cons kv rest ih =>
    obtain ⟨k, v⟩ := kv
    have hk : startswith u k = false := h (k, v) (by simp)
    simp only [scanRepl, hk, Bool.false_eq_true, if_false]
    exact ih (fun kv2 h2 => h kv2 (by simp [h2]))

theorem scanRepl_found (u : Str) (l : List (Str × Str)) (k v : Str)
    (h : l.find? (fun kv => startswith u kv.1) = some (k, v)) :
    scanRepl u l = .ok (replaceFirst k v u) := by
  induction l with
  | nil => simp at h
  | cons kv rest ih =>
    obtain ⟨k2, v2⟩ := kv
    by_cases hk : startswith u k2 = true
    · rw [List.find?_cons_of_pos _ (by simpa using hk)] at h
      injection h with h2
      cases h2
      simp only [scanRepl, hk, if_true]
    · rw [List.find?_cons_of_neg _ (by simpa using hk)] at h
      have hkf : startswith u k2 = false := by
        cases hx : startswith u k2 with
        | true => exact absurd hx hk
        | false => rfl
      simp only [scanRepl, hkf, Bool.false_eq_true, if_false]
      exact ih h

/-- C8: when none of the three built-in rules matches `u`, an absent table
or one with no prefix-matching entry makes `convert_remote_url` fail with
`UnsupportedURIException` carrying the original URL; and when the table
does contain a matching entry, the first one found wins and only the
leading occurrence of its key is replaced (the remainder `u.drop k.length`
is untouched). -/
theorem convert_remote_url_no_match_and_table (u : Str)
    (h1 : startswith u (str "https://github.com") = false)
    (h2 : startswith u (str "git@github.com") = false)
    (h3 : startswith u (str "https://go.googlesource.com/") = false) :
    (∀ repl : Option (List (Str × Str)),
      (match repl with
       | none => true
       | some l => l.all (fun kv => !(startswith u kv.1))) = true →
      convert_remote_url u repl = .error (.unsupportedURI u)) ∧
    (∀ (l : List (Str × Str)) (k v : Str),
      l.find? (fun kv => startswith u kv.1) = some (k, v) →
      convert_remote_url u (some l) = .ok (v ++ u.drop k.length)) := by
  constructor
  · intro repl hno
    unfold convert_remote_url
    simp only [h1, h2, h3, Bool.false_eq_true, if_false]
    match repl, hno with
    | none, _ => rfl
    | some l, hno =>
      refine scanRepl_none u l ?_
      intro kv hkv
      have := List.all_eq_true.mp hno kv hkv
      simpa using this
  · intro l k v hfind
    unfold convert_remote_url
    simp only [h1, h2, h3, Bool.false_eq_true, if_false]
    rw [scanRepl_found u l k v hfind]
    have hk : startswith u k = true := by
      have := List.find?_some hfind
      simpa using this
    unfold startswith at hk
    rw [replaceFirst_of_isPrefixOf k v u hk]

/-- C8 witness: a bitbucket URL is rejected without a table and rewritten
prefix-only with one. -/
theorem convert_remote_url_no_match_and_table_witness :
    convert_remote_url (str "https://bitbucket.org/x/y") none =
      .error (.unsupportedURI (str "https://bitbucket.org/x/y")) ∧
    convert_remote_url (str "https://bitbucket.org/x/y")
        (some [(str "https://bitbucket.org/", str "https://bb.example/")]) =
      .ok (str "https://bb.example/" ++
        (str "https://bitbucket.org/x/y").drop (str "https://bitbucket.org/").length) := by
  constructor
  · exact (convert_remote_url_no_match_and_table (str "https://bitbucket.org/x/y")
      (by decide) (by decide) (by decide)).1 none (by decide)
  · exact (convert_remote_url_no_match_and_table (str "https://bitbucket.org/x/y")
      (by decide) (by decide) (by decide)).2
      [(str "https://bitbucket.org/", str "https://bb.example/")] _ _ (by decide)

/-- C7: for every `org` and `repo`, the SSH form
`git@github.com:org/repo.git` is canonicalised — with any replacement
table — by stripping `git@`, stripping `.git`, replacing the first `:`
with `/` and prepending `https://`, giving `https://github.com/org/repo`. -/
theorem convert_remote_url_ssh_form (org repo : Str)
    (repl : Option (List (Str × Str))) :
    convert_remote_url
        (str "git@github.com:" ++ org ++ str "/" ++ repo ++ str ".git") repl =
      .ok (str "https://github.com/" ++ org ++ str "/" ++ repo) := by
  have hy : str "git@github.com:" ++ org ++ str "/" ++ repo ++ str ".git"
      = str "git@github.com" ++ (str ":" ++ (org ++ (str "/" ++ (repo ++ str ".git")))) := by
    simp only [List.append_assoc]
    rw [show str "git@github.com:" = str "git@github.com" ++ str ":" from by decide,
        List.append_assoc]
  have hc1 : startswith
      (str "git@github.com:" ++ org ++ str "/" ++ repo ++ str ".git")
      (str "https://github.com") = false := by
    unfold startswith
    rw [hy,
      show str "https://github.com" = str "https://github" ++ str ".com" from by decide,
      isPrefixOf_append_eq _ _ _ _ (by decide)]
    simp [show ((str "https://github") == (str "git@github.com")) = false from by decide]
  have hc2 : startswith
      (str "git@github.com:" ++ org ++ str "/" ++ repo ++ str ".git")
      (str "git@github.com") = true := by
    unfold startswith
    rw [hy]
    exact isPrefixOf_self_append _ _
  have e1 : removeprefix
      (str "git@github.com:" ++ org ++ str "/" ++ repo ++ str ".git") (str "git@")
      = str "github.com:" ++ org ++ str "/" ++ repo ++ str ".git" := by
    have hz : str "git@github.com:" ++ org ++ str "/" ++ repo ++ str ".git"
        = str "git@" ++ (str "github.com:" ++ org ++ str "/" ++ repo ++ str ".git") := by
      simp only [List.append_assoc]
      rw [show str "git@github.com:" = str "git@" ++ str "github.com:" from by decide,
          List.append_assoc]
    rw [hz, removeprefix_append]
  have e2 : removesuffix
      (str "github.com:" ++ org ++ str "/" ++ repo ++ str ".git") (str ".git")
      = str "github.com:" ++ org ++ str "/" ++ repo :=
    removesuffix_append (str "github.com:" ++ org ++ str "/" ++ repo) (str ".git")
  have e3 : replaceFirst (str ":") (str "/")
      (str "github.com:" ++ org ++ str "/" ++ repo)
      = str "github.com/" ++ org ++ str "/" ++ repo := by
    have hx : str "github.com:" ++ org ++ str "/" ++ repo
        = str "github.com" ++ (str ":" ++ (org ++ (str "/" ++ repo))) := by
      simp only [List.append_assoc]
      rw [show str "github.com:" = str "github.com" ++ str ":" from by decide,
          List.append_assoc]
    rw [hx, show (str ":") = [':'] from rfl,
        replaceFirst_single_outside ':' (str "/") (str "github.com") _ (by decide),
        replaceFirst_of_isPrefixOf [':'] (str "/") _ (isPrefixOf_self_append _ _)]
    simp only [List.singleton_append, List.length_singleton, List.drop_succ_cons,
      List.drop_zero]
    simp only [List.append_assoc]
    rw [show str "github.com/" = str "github.com" ++ str "/" from by decide,
        List.append_assoc]
  unfold convert_remote_url
  simp only [hc1, Bool.false_eq_true, if_false, hc2, if_true, e1, e2, e3]
  simp only [List.append_assoc]
  rw [show str "https://github.com/" = str "https://" ++ str "github.com/" from by decide,
      List.append_assoc]

theorem removesuffix_git_keeps_gh (t : Str) :
    ∃ t2, removesuffix (str "github.com" ++ t) (str ".git") = str "github.com" ++ t2 := by
  unfold removesuffix
  by_cases h : endswith (str "github.com" ++ t) (str ".git") = true
  · rw [if_pos h]
    rcases Nat.lt_or_ge t.length 4 with hlt | hge
    · exfalso
      have hflip : ((str ".git").reverse).isPrefixOf
          (t.reverse ++ (str "github.com").reverse) = true := by
        have hdef : endswith (str "github.com" ++ t) (str ".git")
            = ((str ".git").reverse).isPrefixOf ((str "github.com" ++ t).reverse) := rfl
        rw [hdef, List.reverse_append] at h
        exact h
      have hk : t.length = 0 ∨ t.length = 1 ∨ t.length = 2 ∨ t.length = 3 := by omega
      rcases hk with hk | hk | hk | hk
      · rw [show (str ".git").reverse = ([] : Str) ++ str "tig." from by decide,
            isPrefixOf_append_eq _ _ _ _ (by rw [List.length_reverse, hk]; rfl)] at hflip
        revert hflip
        simp [show ((str "tig.").isPrefixOf ((str "github.com").reverse)) = false
          from by decide]
      · rw [show (str ".git").reverse = str "t" ++ str "ig." from by decide,
            isPrefixOf_append_eq _ _ _ _ (by rw [List.length_reverse, hk]; rfl)] at hflip
        revert hflip
        simp [show ((str "ig.").isPrefixOf ((str "github.com").reverse)) = false
          from by decide]
      · rw [show (str ".git").reverse = str "ti" ++ str "g." from by decide,
            isPrefixOf_append_eq _ _ _ _ (by rw [List.length_reverse, hk]; rfl)] at hflip
        revert hflip
        simp [show ((str "g.").isPrefixOf ((str "github.com").reverse)) = false
          from by decide]
      · rw [show (str ".git").reverse = str "tig" ++ str "." from by decide,
            isPrefixOf_append_eq _ _ _ _ (by rw [List.length_reverse, hk]; rfl)] at hflip
        revert hflip
        simp [show ((str ".").isPrefixOf ((str "github.com").reverse)) = false
          from by decide]
    · refine ⟨t.take (t.length - 4), ?_⟩
      have l10 : (str "github.com").length = 10 := by decide
      have l4 : (str ".git").length = 4 := by decide
      have hlen : (str "github.com" ++ t).length - (str ".git").length
          = 6 + t.length := by
        rw [List.length_append, l10, l4]; omega
      rw [hlen, List.take_append_eq_append_take]
      congr 1
      · exact List.take_of_length_le (by rw [l10]; omega)
      · congr 1
        rw [l10]; omega
  · rw [if_neg h]
    exact ⟨t, rfl⟩

theorem ssh_not_ghHttps (t : Str) :
    startswith (str "git@github.com" ++ t) (str "https://github.com") = false := by
  unfold startswith
  rw [show str "https://github.com" = str "https://github" ++ str ".com" from by decide,
      isPrefixOf_append_eq _ _ _ _ (by decide)]
  simp [show ((str "https://github") == (str "git@github.com")) = false from by decide]

theorem goog_not_ghHttps (t : Str) :
    startswith (str "https://go.googlesource.com/" ++ t)
      (str "https://github.com") = false := by
  unfold startswith
  rw [show str "https://go.googlesource.com/"
        = str "https://go.googles" ++ str "ource.com/" from by decide,
      List.append_assoc,
      isPrefixOf_append_left_eq _ _ _ (by decide)]
  decide

theorem goog_not_ssh (t : Str) :
    startswith (str "https://go.googlesource.com/" ++ t)
      (str "git@github.com") = false := by
  unfold startswith
  rw [show str "https://go.googlesource.com/"
        = str "https://go.goo" ++ str "glesource.com/" from by decide,
      List.append_assoc,
      isPrefixOf_append_left_eq _ _ _ (by decide)]
  decide

/-- C3 counterexample: a URL accepted only via the replacement table need
not canonicalise to a fixed point — the rewritten URL is rejected on a
second pass, so idempotence fails for table-supported inputs. -/
theorem convert_remote_url_idem_cex :
    convert_remote_url (str "https://example.com/x")
        (some [(str "https://example.com/", str "https://gitlab.com/")]) =
      .ok (str "https://gitlab.com/x") ∧
    convert_remote_url (str "https://gitlab.com/x")
        (some [(str "https://example.com/", str "https://gitlab.com/")]) =
      .error (.unsupportedURI (str "https://gitlab.com/x")) := by decide

/-- C3 (amended): `convert_remote_url` is idempotent on its own output for
every URL accepted by one of the three built-in rules (GitHub HTTPS,
GitHub SSH, Go mirror), with any replacement table; acceptance via the
replacement table does not guarantee idempotence. -/
theorem convert_remote_url_idem_builtin (u r : Str)
    (repl : Option (List (Str × Str)))
    (hb : startswith u (str "https://github.com") = true ∨
          startswith u (str "git@github.com") = true ∨
          startswith u (str "https://go.googlesource.com/") = true)
    (h : convert_remote_url u repl = .ok r) :
    convert_remote_url r repl = .ok r := by
  have key : startswith r (str "https://github.com") = true := by
    rcases hb with h1 | h2 | h3
    · unfold convert_remote_url at h
      rw [if_pos h1] at h
      injection h with h
      subst h
      exact h1
    · unfold startswith at h2
      obtain ⟨t, ht⟩ := exists_rest_of_isPrefixOf h2
      subst ht
      unfold convert_remote_url at h
      rw [if_neg (by simp [ssh_not_ghHttps t]),
          if_pos (show startswith (str "git@github.com" ++ t) (str "git@github.com")
            = true from by unfold startswith; exact isPrefixOf_self_append _ _)] at h
      injection h with h
      have hz : str "git@github.com" ++ t = str "git@" ++ (str "github.com" ++ t) := by
        rw [show str "git@github.com" = str "git@" ++ str "github.com" from by decide,
            List.append_assoc]
      rw [hz, removeprefix_append] at h
      obtain ⟨t2, ht2⟩ := removesuffix_git_keeps_gh t
      rw [ht2, show (str ":") = [':'] from rfl,
          replaceFirst_single_outside ':' (str "/") (str "github.com") t2
            (by decide)] at h
      subst h
      unfold startswith
      rw [show str "https://" ++
            (str "github.com" ++ replaceFirst [':'] (str "/") t2)
            = str "https://github.com" ++ replaceFirst [':'] (str "/") t2 from by
          rw [← List.append_assoc]; congr 1]
      exact isPrefixOf_self_append _ _
    · unfold startswith at h3
      obtain ⟨t, ht⟩ := exists_rest_of_isPrefixOf h3
      subst ht
      unfold convert_remote_url at h
      rw [if_neg (by simp [goog_not_ghHttps t]),
          if_neg (by simp [goog_not_ssh t]),
          if_pos (show startswith (str "https://go.googlesource.com/" ++ t)
              (str "https://go.googlesource.com/") = true from by
            unfold startswith; exact isPrefixOf_self_append _ _)] at h
      injection h with h
      rw [replaceFirst_of_isPrefixOf _ _ _ (isPrefixOf_self_append _ _),
          List.drop_left] at h
      subst h
      unfold startswith
      rw [show str "https://github.com/golang/" ++ t
            = str "https://github.com" ++ (str "/golang/" ++ t) from by
          rw [← List.append_assoc]; congr 1]
      exact isPrefixOf_self_append _ _
  unfold convert_remote_url
  rw [if_pos key]

/-- C3 witness. -/
theorem convert_remote_url_idem_builtin_witness :
    convert_remote_url (str "https://github.com/o/r") none =
      .ok (str "https://github.com/o/r") :=
  convert_remote_url_idem_builtin (str "git@github.com:o/r.git")
    (str "https://github.com/o/r") none (by decide) (by decide)
